import Mathlib

/-!
# Verification of the archivist repository core (nh2/bupstash, early "archivist" tree)

Shallow embedding of `src/repository.rs` and `src/hydrogen.rs`, together with
spec-modelled versions of the external collaborators whose sources are not in
the repository snapshot (`address.rs`, `chunk_storage.rs`, `htree.rs`, the
`crypto` module and the libhydrogen C library).  Machine integers that matter
are modelled as `Nat`/`Int`; byte payloads as `List Nat`; fallible Rust code
returns `Except`.
-/

namespace Archivist

/-! ## Addresses and chunk payloads -/

/-- Modelled from the spec: `address.rs` is absent from the snapshot.  A
`ContentAddress` is a fixed-length byte sequence with byte-wise equality,
usable as a set/map key (spec section 3 and 4.1). -/
structure Address where
  bytes : List Nat
deriving DecidableEq, Repr

/-- Modelled from the spec: a chunk payload is an opaque byte string; a
hash-tree node chunk is a payload that parses as an ordered list of child
addresses (spec section 3).  The two alternatives model the serialization
codec abstractly: encoding an address list and decoding it back round-trips,
and raw bytes that are not such an encoding fail to parse. -/
inductive ChunkData where
  | addrs (children : List Address)
  | bytes (payload : List Nat)
deriving DecidableEq, Repr

/-- Errors surfaced by the embedded operations.  The first five constructors
mirror `RepoError` in `repository.rs`; the remaining ones stand for the
`failure::Error` values produced by collaborators (sqlite typing errors,
bincode/serde decode errors, chunk-not-found, the exclusive-lock policy
error of `gc`) and for exhaustion of the loop fuel of the embedding. -/
inductive Err where
  | alreadyExists (path : String)
  | notInitializedProperly
  | repoDoesNotExist
  | unsupportedSchemaVersion
  | notExclusive
  | invalidColumnType
  | decodeError
  | noSuchChunk (a : Address)
  | outOfFuel
deriving DecidableEq, Repr

/-! ## Chunk storage engine

Modelled from the spec: `chunk_storage.rs` is absent from the snapshot; the
spec (section 4.3) fixes the contract: `add_chunk` is idempotent with
first-write-wins dedup, `get_chunk` fails with not-found when absent,
`sync` is a durability barrier (no further externally observable effect in
a crash-free embedding), and `gc` deletes every stored chunk whose address
the predicate rejects, returning counts. -/

/-- State of a chunk storage engine: the stored chunks, keyed by address.
The association list never holds two entries for one address. -/
structure EngineState where
  chunks : List (Address × ChunkData)
deriving DecidableEq, Repr

def EngineState.empty : EngineState := ⟨[]⟩

def EngineState.find (e : EngineState) (a : Address) : Option ChunkData :=
  (e.chunks.find? (fun c => c.1 = a)).map (fun c => c.2)

/-- Modelled from the spec: `add_chunk(address, bytes)` — if content at the
address already exists the call succeeds without rewriting, otherwise the
bytes are staged for write (spec section 4.3). -/
def addChunk (e : EngineState) (a : Address) (d : ChunkData) : EngineState :=
  match e.find a with
  | some _ => e
  | none => ⟨e.chunks ++ [(a, d)]⟩

/-- Modelled from the spec: `get_chunk(address)` fails with a not-found
error if absent (spec section 4.3). -/
def getChunk (e : EngineState) (a : Address) : Except Err ChunkData :=
  match e.find a with
  | some d => Except.ok d
  | none => Except.error (Err.noSuchChunk a)

/-- Modelled from the spec: `sync()` is a durability barrier; in a
crash-free embedding it leaves the stored chunk set unchanged. -/
def syncEngine (e : EngineState) : EngineState := e

/-- `GCStats` from `repository.rs`: counts returned by the sweep. -/
structure GCStats where
  chunks_deleted : Nat
  bytes_freed : Nat
  bytes_remaining : Nat
deriving DecidableEq, Repr

/-- Size in bytes attributed to a chunk payload by the stats. -/
def chunkSize : ChunkData → Nat
  | ChunkData.addrs l => l.length
  | ChunkData.bytes bs => bs.length

/-- Modelled from the spec: the engine `gc(is_reachable)` enumerates every
stored chunk and deletes each whose address the predicate rejects,
returning stats (spec section 4.3).  Also returns the list of deleted
addresses so that theorems can speak about which deletions were issued. -/
def engineGc (e : EngineState) (reachable : List Address) :
    EngineState × GCStats × List Address :=
  let kept := e.chunks.filter (fun c => c.1 ∈ reachable)
  let deleted := e.chunks.filter (fun c => c.1 ∉ reachable)
  (⟨kept⟩,
   { chunks_deleted := deleted.length
     bytes_freed := (deleted.map (fun c => chunkSize c.2)).sum
     bytes_remaining := (kept.map (fun c => chunkSize c.2)).sum },
   deleted.map (fun c => c.1))

/-! ## libhydrogen generic hash (`src/hydrogen.rs`)

The C primitives `hydro_hash_init` / `hydro_hash_update` /
`hydro_hash_finish` / `hydro_hash_hash` are external collaborators (spec
sections 1 and 6); they are modelled as a deterministic sponge whose state
records the context, optional key and all absorbed bytes, and whose
finalization is an arbitrary fixed function of that state and the output
length.  The one-shot `hydro_hash_hash` is init-update-finish composed, as
libhydrogen documents.  The Rust wrappers in `src/hydrogen.rs` are embedded
on top, faithfully to the FFI calls they make. -/

/-- Modelled from the spec: the internal state of libhydrogen's generic
hash, as observed through its API. -/
structure HashState where
  ctx : List Nat
  key : Option (List Nat)
  absorbed : List Nat
deriving DecidableEq, Repr

def hydroHashInit (ctx : List Nat) (key : Option (List Nat)) : HashState :=
  ⟨ctx, key, []⟩

def hydroHashUpdate (st : HashState) (data : List Nat) : HashState :=
  { st with absorbed := st.absorbed ++ data }

/-- Modelled from the spec: finalization squeezes `outLen` digest bytes, a
fixed deterministic function of the whole absorbed state.  The concrete
formula is an arbitrary representative of a collision-resistant digest; the
theorems below depend only on it being a function of the state that differs
from an untouched zero buffer on at least one input. -/
def hydroHashFinish (st : HashState) (outLen : Nat) : List Nat :=
  (List.range outLen).map
    (fun i => (st.absorbed.sum + st.ctx.sum + st.absorbed.length + i + 1) % 256)

/-- Modelled from the spec: the one-shot `hydro_hash_hash` is
init-update-finish composed. -/
def hydroHashHash (msg : List Nat) (ctx : List Nat) (key : Option (List Nat))
    (outLen : Nat) : List Nat :=
  hydroHashFinish (hydroHashUpdate (hydroHashInit ctx key) msg) outLen

/-- Embeds `hydrogen::hash` (src/hydrogen.rs lines 112-132): the one-shot
wrapper hands the output buffer to `hydro_hash_hash`, which overwrites it
with the digest.  Returns the buffer contents after the call. -/
def hashOneShot (msg : List Nat) (ctx : List Nat) (key : Option (List Nat))
    (out : List Nat) : List Nat :=
  hydroHashHash msg ctx key out.length

/-- Embeds `hydrogen::Hash` (src/hydrogen.rs lines 134-182): the incremental
hasher owns a `hydro_hash_state`. -/
structure Hash where
  st : HashState
deriving DecidableEq, Repr

/-- Embeds `Hash::init`: calls `hydro_hash_init`. -/
def Hash.init (ctx : List Nat) (key : Option (List Nat)) : Hash :=
  ⟨hydroHashInit ctx key⟩

/-- Embeds `Hash::update`: calls `hydro_hash_update` with the data. -/
def Hash.update (h : Hash) (data : List Nat) : Hash :=
  ⟨hydroHashUpdate h.st data⟩

/-- Embeds `Hash::finish` (src/hydrogen.rs lines 171-181) exactly as
written: it calls `hydro_hash_update` with the OUTPUT buffer as the input
data pointer, and never calls `hydro_hash_finish`.  The update reads the
buffer and absorbs it into the (then dropped) state; the buffer itself is
never written.  Returns the final state and the buffer contents after the
call. -/
def Hash.finish (h : Hash) (out : List Nat) : Hash × List Nat :=
  (⟨hydroHashUpdate h.st out⟩, out)

/-- The full incremental digest path of the claim:
`Hash::init`, `Hash::update(msg)`, `Hash::finish(out)`; result is the
contents of `out` afterwards. -/
def incrementalDigest (ctx : List Nat) (key : Option (List Nat))
    (msg : List Nat) (out : List Nat) : List Nat :=
  ((Hash.init ctx key).update msg |>.finish out).2

/-! ## Item metadata and the serialization codecs -/

/-- Modelled from the spec: `crypto.rs` is absent from the snapshot; the
versioned encryption header is an opaque value with byte-wise equality
(spec section 3: "encryption header for the item's encrypted tag
payload"). -/
structure VersionedEncryptionHeader where
  header : List Nat
deriving DecidableEq, Repr

/-- `ItemMetadata` from `repository.rs` lines 52-58. -/
structure ItemMetadata where
  tree_height : Nat
  encrypt_header : VersionedEncryptionHeader
  encrypted_tags : List Nat
  address : Address
deriving DecidableEq, Repr

/-- `Item` from `repository.rs` lines 46-50. -/
structure Item where
  id : Int
  metadata : ItemMetadata
deriving DecidableEq, Repr

/-- A byte string that may or may not be a valid bincode encoding of an
`ItemMetadata`.  `enc m` stands for `bincode::serialize(&m)`; `raw bs`
stands for any byte string that is not such an encoding (e.g. a corrupted
record).  This models the bincode codec at the level the spec fixes it:
"encode/decode a value to bytes, throws/returns error on malformed
input". -/
inductive MetaBlob where
  | enc (m : ItemMetadata)
  | raw (bs : List Nat)
deriving DecidableEq, Repr

/-- `bincode::deserialize::<ItemMetadata>`: inverts `enc`, errors on
malformed input. -/
def bincodeDeserialize : MetaBlob → Except Err ItemMetadata
  | MetaBlob.enc m => Except.ok m
  | MetaBlob.raw _ => Except.error Err.decodeError

/-- A text string that may or may not be a valid serde_json encoding of an
`ItemMetadata`, at the same level of abstraction as `MetaBlob`. -/
inductive MetaText where
  | jsonOf (m : ItemMetadata)
  | other (s : String)
deriving DecidableEq, Repr

/-- `serde_json::from_str::<ItemMetadata>`. -/
def jsonDeserialize : MetaText → Except Err ItemMetadata
  | MetaText.jsonOf m => Except.ok m
  | MetaText.other _ => Except.error Err.decodeError

/-- A value stored in a sqlite column: TEXT or BLOB (the only dynamic types
the embedded code ever stores in the Metadata column). -/
inductive SqlValue where
  | text (t : MetaText)
  | blob (b : MetaBlob)
deriving DecidableEq, Repr

/-- rusqlite `row.get::<String>`: `FromSql for String` accepts only a TEXT
value and fails with an invalid-column-type error on a BLOB. -/
def sqlGetString : SqlValue → Except Err MetaText
  | SqlValue.text t => Except.ok t
  | SqlValue.blob _ => Except.error Err.invalidColumnType

/-- rusqlite `row.get::<Vec<u8>>`: `FromSql for Vec<u8>` accepts only a
BLOB value. -/
def sqlGetBlob : SqlValue → Except Err MetaBlob
  | SqlValue.blob b => Except.ok b
  | SqlValue.text _ => Except.error Err.invalidColumnType

/-! ## The Items table and the repository state -/

/-- The sqlite state behind one repository: the `RepositoryMeta` key/value
table, the `Items` table (rowid, Metadata) with its AUTOINCREMENT counter
(`nextId` is one more than the largest rowid ever assigned; AUTOINCREMENT
never reuses an id), and the storage engine's chunk directory. -/
structure RepoState where
  meta : List (String × String)
  rows : List (Int × SqlValue)
  nextId : Int
  engine : EngineState
deriving DecidableEq, Repr

/-- `OpenMode` from `repository.rs` lines 34-37. -/
inductive OpenMode where
  | Shared
  | Exclusive
deriving DecidableEq, Repr

/-- SQL `update RepositoryMeta set value = v where key = k`: every row
whose key equals `k` gets value `v`; an update matching no row succeeds
and changes nothing. -/
def updateMetaKey (meta : List (String × String)) (k v : String) :
    List (String × String) :=
  meta.map (fun kv => (kv.1, if kv.1 = k then v else kv.2))

/-- SQL `select value from RepositoryMeta where Key = k` (first matching
row). -/
def readMetaKey (meta : List (String × String)) (k : String) :
    Option String :=
  (meta.find? (fun kv => kv.1 = k)).map (fun kv => kv.2)

/-- Embeds `Repo::gc_generation` (repository.rs lines 259-265). -/
def gcGeneration (st : RepoState) : Option String :=
  readMetaKey st.meta "gc-generation"

/-- Embeds `Repo::add_item` (repository.rs lines 275-286): inserts a
bincode-serialized metadata blob into `Items`, returning
`last_insert_rowid` — the id sqlite assigns from the AUTOINCREMENT
counter. -/
def addItem (st : RepoState) (m : ItemMetadata) : Int × RepoState :=
  (st.nextId,
   { st with
     rows := st.rows ++ [(st.nextId, SqlValue.blob (MetaBlob.enc m))]
     nextId := st.nextId + 1 })

/-- Embeds `Repo::lookup_item_by_id` (repository.rs lines 288-300):
`select Metadata from Items where Id = ?`, `QueryReturnedNoRows` becomes
`Ok(None)`, then the blob is bincode-deserialized. -/
def lookupItemById (st : RepoState) (id : Int) : Except Err (Option Item) :=
  match st.rows.find? (fun r => r.1 = id) with
  | none => Except.ok none
  | some r => do
      let b ← sqlGetBlob r.2
      let m ← bincodeDeserialize b
      Except.ok (some ⟨id, m⟩)

/-- The repository state reached from a fresh `init` by a sequence of
`add_item` calls (initial `Items` table empty, AUTOINCREMENT counter at
1). -/
def buildCatalog (meta0 : List (String × String)) (eng : EngineState)
    (ms : List ItemMetadata) : RepoState :=
  ms.foldl (fun st m => (addItem st m).2)
    { meta := meta0, rows := [], nextId := 1, engine := eng }

/-- The rowids present in the `Items` table — in a state built only by
`add_item` calls these are exactly the ids `add_item` ever returned. -/
def assignedIds (st : RepoState) : List Int :=
  st.rows.map (fun r => r.1)

/-! ## walk_all_items -/

/-- The row loop of `Repo::walk_all_items` (repository.rs lines 302-333),
with the callback modelled as collecting the delivered batches: each row's
Metadata column is read as a String (`row.get::<String>`), decoded with
`serde_json::from_str`, and accumulated; once the accumulator holds more
than 100 items it is handed to the callback and reset; at end of rows a
non-empty remainder is handed over.  Errors propagate via `?`. -/
def walkLoop (rows : List (Int × SqlValue)) (items : List Item)
    (delivered : List (List Item)) : Except Err (List (List Item)) :=
  match rows with
  | [] => if items.isEmpty then Except.ok delivered
          else Except.ok (delivered ++ [items])
  | r :: rest => do
      let t ← sqlGetString r.2
      let m ← jsonDeserialize t
      let items2 := items ++ [⟨r.1, m⟩]
      if 100 < items2.length then walkLoop rest [] (delivered ++ [items2])
      else walkLoop rest items2 delivered

/-- Embeds `Repo::walk_all_items`: returns the batches delivered to the
callback, or the first error. -/
def walkAllItems (st : RepoState) : Except Err (List (List Item)) :=
  walkLoop st.rows [] []

/-! ## Hash-tree reader and the repository GC

`htree.rs` is absent from the snapshot.  The `TreeReader` protocol is
modelled from the spec (section 4.2): its state is an explicit stack of
`(height, address)` pairs initialized with the root; `next_addr` pops the
next pending pair or signals exhaustion when the stack is empty;
`push_addr(height, address)` fetches the chunk at the address, parses its
payload as an address list (failing with a fetch or decode error
otherwise), and pushes each child with the given height.  `Repo::gc`
(repository.rs lines 335-380) drives this reader exactly as the Rust
source does. -/

/-- Modelled from the spec: parsing a chunk payload as the address list of
a tree node; fails on payloads that are not such an encoding. -/
def parseAddrList : ChunkData → Except Err (List Address)
  | ChunkData.addrs l => Except.ok l
  | ChunkData.bytes _ => Except.error Err.decodeError

/-- The inner `while let Some((height, addr)) = tr.next_addr()?` loop of
`Repo::gc` (repository.rs lines 361-368), fuelled: pops the next pending
pair; a popped address not yet in the reachable set is inserted, and when
its height is non-zero `push_addr(height - 1, addr)` fetches that node's
chunk, parses it and schedules each child at `height - 1`.  Returns the
grown reachable set. -/
def markTree (eng : EngineState) : Nat → List (Nat × Address) →
    List Address → Except Err (List Address)
  | 0, _, _ => Except.error Err.outOfFuel
  | _ + 1, [], reachable => Except.ok reachable
  | fuel + 1, (height, addr) :: stack, reachable =>
      if addr ∈ reachable then markTree eng fuel stack reachable
      else
        let reachable2 := addr :: reachable
        if height ≠ 0 then do
          let d ← getChunk eng addr
          let children ← parseAddrList d
          markTree eng fuel
            (children.map (fun a => (height - 1, a)) ++ stack) reachable2
        else markTree eng fuel stack reachable2

/-- The `while let Some(row) = rows.next()?` loop of `Repo::gc`
(repository.rs lines 353-371): each Items row's Metadata blob is read as
`Vec<u8>` and bincode-deserialized; a root address not already reachable
is traversed with a fresh `TreeReader`. -/
def markPhase (eng : EngineState) (fuel : Nat) :
    List (Int × SqlValue) → List Address → Except Err (List Address)
  | [], reachable => Except.ok reachable
  | r :: rest, reachable => do
      let b ← sqlGetBlob r.2
      let m ← bincodeDeserialize b
      let reachable2 ←
        if m.address ∈ reachable then Except.ok reachable
        else markTree eng fuel [(m.tree_height, m.address)] reachable
      markPhase eng fuel rest reachable2

/-- Observable events of one `Repo::gc` run, in program order: the
`update RepositoryMeta` statement executed inside the transaction, the
transaction commit, and the storage engine sweep (with the addresses it
deleted). -/
inductive GcEvent where
  | updateMeta (key value : String)
  | commitTx
  | sweep (deleted : List Address)
deriving DecidableEq, Repr

/-- Result of one `Repo::gc` run: the event trace, the repository state
after the run (transactional: on an error before commit the database is
rolled back and the chunk set is untouched), and the returned value. -/
structure GcOutcome where
  trace : List GcEvent
  state : RepoState
  result : Except Err GCStats
deriving Repr

/-- Embeds `Repo::gc` (repository.rs lines 335-380).  `freshToken` is the
value `new_random_token()` produced this run (randomness as an oracle
input).  The method bails unless the handle is Exclusive; otherwise, inside
one transaction, it executes
`update RepositoryMeta set value = ? where key = 'gc_generation'` — with
an underscore, whereas `init` stored the key `gc-generation` with a
hyphen — then runs the mark phase over all Items rows, commits, and only
then invokes the engine sweep with the reachable-set membership
predicate. -/
def gcRepo (mode : OpenMode) (fuel : Nat) (freshToken : String)
    (st : RepoState) : GcOutcome :=
  match mode with
  | OpenMode.Shared => { trace := [], state := st, result := Except.error Err.notExclusive }
  | OpenMode.Exclusive =>
      let ev0 := GcEvent.updateMeta "gc_generation" freshToken
      let txMeta := updateMetaKey st.meta "gc_generation" freshToken
      match markPhase st.engine fuel st.rows [] with
      | Except.error e =>
          { trace := [ev0], state := st, result := Except.error e }
      | Except.ok reachable =>
          let st2 := { st with meta := txMeta }
          let swept := engineGc st2.engine reachable
          { trace := [ev0, GcEvent.commitTx, GcEvent.sweep swept.2.2]
            state := { st2 with engine := swept.1 }
            result := Except.ok swept.2.1 }

/-! ## init and open -/

/-- The `RepositoryMeta` rows `Repo::init` inserts (repository.rs lines
162-181): schema-version 0, a random repository id, a random initial
gc-generation token — stored under the hyphenated key `gc-generation` —
and the serialized storage engine spec. -/
def initialMeta (idTok gcTok engineSpec : String) : List (String × String) :=
  [("schema-version", "0"), ("id", idTok), ("gc-generation", gcTok),
   ("storage-engine", engineSpec)]

/-- The temporary staging path `Repo::init` derives (repository.rs lines
136-141): the target's file name with `.archivist-repo-init-tmp`
appended, in the target's parent directory. -/
def tmpPathOf (p : String) : String := p ++ ".archivist-repo-init-tmp"

/-- Embeds the control flow of `Repo::init` (repository.rs lines 120-193)
over an abstract filesystem (the set of existing paths): if the target
path exists, fail with AlreadyExists naming it; else if the staging path
exists, fail with AlreadyExists naming that; both checks precede every
directory creation, so on failure the filesystem is returned untouched.
On success the layout is built at the staging path and atomically renamed
to the target, so only the target appears. -/
def initRepo (fs : List String) (p : String) :
    List String × Except Err Unit :=
  if p ∈ fs then (fs, Except.error (Err.alreadyExists p))
  else if tmpPathOf p ∈ fs then
    (fs, Except.error (Err.alreadyExists (tmpPathOf p)))
  else (p :: fs, Except.ok ())

/-- What `Repo::open` sees of a repository on disk: whether the path
exists, whether the `data` directory and the `archivist.db` file exist
inside it, and the stored schema version. -/
structure RepoFs where
  repoExists : Bool
  dataExists : Bool
  dbExists : Bool
  schemaVersion : Int
deriving DecidableEq, Repr

/-- The advisory lock kind held by a handle's `FileLock`. -/
inductive LockKind where
  | shared
  | exclusive
deriving DecidableEq, Repr

/-- The lock `Repo::open` acquires for each mode (repository.rs lines
214-217). -/
def lockFor : OpenMode → LockKind
  | OpenMode.Shared => LockKind.shared
  | OpenMode.Exclusive => LockKind.exclusive

/-- The handle `Repo::open` returns: its mode and the lock it holds. -/
structure RepoHandle where
  open_mode : OpenMode
  gc_lock : LockKind
deriving DecidableEq, Repr

/-- Embeds `Repo::check_sane` (repository.rs lines 106-118): the path must
exist (else RepoDoesNotExist), then `data` and `archivist.db` must exist
(else NotInitializedProperly). -/
def checkSane (fs : RepoFs) : Except Err Unit :=
  if !fs.repoExists then Except.error Err.repoDoesNotExist
  else if !fs.dataExists then Except.error Err.notInitializedProperly
  else if !fs.dbExists then Except.error Err.notInitializedProperly
  else Except.ok ()

/-- Embeds `Repo::open` (repository.rs lines 211-235): check sanity,
acquire the lock for the mode, read the stored schema version and refuse
any version other than 0, else return the handle holding the lock. -/
def openRepo (fs : RepoFs) (mode : OpenMode) : Except Err RepoHandle :=
  match checkSane fs with
  | Except.error e => Except.error e
  | Except.ok _ =>
      if fs.schemaVersion ≠ 0 then Except.error Err.unsupportedSchemaVersion
      else Except.ok { open_mode := mode, gc_lock := lockFor mode }

/-! ## Concrete example states used by closed theorems -/

/-- A freshly initialized repository state: metadata as written by
`Repo::init` with id token I and gc-generation token G, empty Items
table, empty chunk store. -/
def stFresh : RepoState :=
  { meta := initialMeta "I" "G" "local", rows := [], nextId := 1,
    engine := EngineState.empty }

/-- A small concrete metadata value. -/
def mEx : ItemMetadata :=
  { tree_height := 0, encrypt_header := ⟨[]⟩, encrypted_tags := [],
    address := ⟨[7]⟩ }

/-- The fresh repository after one `add_item` call. -/
def stOneItem : RepoState := (addItem stFresh mEx).2

/-- A repository state whose single Items row holds a corrupt (non-bincode)
Metadata blob. -/
def stCorrupt : RepoState :=
  { meta := initialMeta "I" "G" "local",
    rows := [(1, SqlValue.blob (MetaBlob.raw [0]))], nextId := 2,
    engine := EngineState.empty }

/-! ## Helper lemmas -/

/-- A SQL UPDATE targeting key `k` leaves reads of any other key
unchanged. -/
theorem readMeta_update_other (meta : List (String × String))
    (k k' v : String) (h : k' ≠ k) :
    readMetaKey (updateMetaKey meta k v) k' = readMetaKey meta k' := by
  induction meta with
  | nil => rfl
  | cons kv rest ih =>
      by_cases hk : kv.1 = k'
      · have hkk : ¬ kv.1 = k := fun hc => h (hk ▸ hc)
        simp [readMetaKey, updateMetaKey, List.find?, hk, hkk, h]
      · simpa [readMetaKey, updateMetaKey, List.find?, hk]
          using ih

/-- Appending a row with a fresh key to an association list makes it the
one `find?` locates. -/
theorem find?_key_append_absent {α β : Type} [DecidableEq α]
    (l : List (α × β)) (a : α) (b : β)
    (h : l.find? (fun c => c.1 = a) = none) :
    (l ++ [(a, b)]).find? (fun c => c.1 = a) = some (a, b) := by
  induction l with
  | nil => simp
  | cons c rest ih =>
      by_cases hc : c.1 = a
      · rw [List.find?_cons_of_pos _ (by simp [hc])] at h
        simp at h
      · rw [List.find?_cons_of_neg _ (by simp [hc])] at h
        rw [List.cons_append, List.find?_cons_of_neg _ (by simp [hc])]
        exact ih h

/-- If the content at an address is already present, `addChunk` succeeds
without rewriting anything. -/
theorem addChunk_present (e : EngineState) (a : Address) (d d' : ChunkData)
    (h : e.find a = some d') : addChunk e a d = e := by
  simp only [addChunk, h]

/-! ## Claim theorems -/

/-- C1: the claim states that a successful `gc()` replaces the stored
`gc-generation` metadata value, so `gc_generation()` after the run differs
from before.  The code violates this: the UPDATE statement in `Repo::gc`
targets the key `gc_generation` (underscore) while `Repo::init` stored the
token under `gc-generation` (hyphen), so the UPDATE matches no row and the
observed generation never changes.  Proved: for every mode, fuel, fresh
token and repository state, `gc_generation()` observed after `gc()` equals
the value observed before; moreover on a freshly initialized repository
the run succeeds and still reports the original token G. -/
theorem gc_generation_not_rotated :
    (∀ mode fuel tok st,
      gcGeneration (gcRepo mode fuel tok st).state = gcGeneration st)
    ∧ (gcRepo OpenMode.Exclusive 1 "T" stFresh).result = Except.ok ⟨0, 0, 0⟩
    ∧ gcGeneration stFresh = some "G"
    ∧ gcGeneration (gcRepo OpenMode.Exclusive 1 "T" stFresh).state = some "G" := by
  refine ⟨?_, rfl, rfl, rfl⟩
  intro mode fuel tok st
  cases mode with
  | Shared => rfl
  | Exclusive =>
      unfold gcRepo
      cases hm : markPhase st.engine fuel st.rows [] with
      | error e => rfl
      | ok reachable =>
          exact readMeta_update_other st.meta "gc_generation" "gc-generation"
            tok (by decide)

/-- C3: on a handle opened Shared, `gc()` fails with the exclusive-lock
policy error before doing any work: its event trace is empty and the
repository state (metadata, items, chunks) is untouched; on an Exclusive
handle the run proceeds (its first event is the generation UPDATE inside
the transaction). -/
theorem gc_shared_mode_rejected :
    ∀ fuel tok st,
      (gcRepo OpenMode.Shared fuel tok st).result
          = Except.error Err.notExclusive
      ∧ (gcRepo OpenMode.Shared fuel tok st).trace = []
      ∧ (gcRepo OpenMode.Shared fuel tok st).state = st
      ∧ (gcRepo OpenMode.Exclusive fuel tok st).trace.get? 0
          = some (GcEvent.updateMeta "gc_generation" tok) := by
  intro fuel tok st
  refine ⟨rfl, rfl, rfl, ?_⟩
  unfold gcRepo
  cases markPhase st.engine fuel st.rows [] with
  | error e => rfl
  | ok reachable => rfl

/-- C5: the claim states that `walk_all_items` delivers every item stored
by `add_item` to the callback in non-empty batches.  The code violates
this: `add_item` stores the Metadata column as a bincode-serialized BLOB,
but `walk_all_items` reads the column as a String (`row.get::<String>`)
and decodes it with `serde_json::from_str`, so on any non-empty catalog
the walk fails at the first row with an invalid-column-type error and the
callback never receives any batch.  Proved at the one-item catalog: the
walk errors (delivering nothing) even though the stored record is intact,
as `lookup_item_by_id` — which uses bincode — still decodes. -/
theorem walk_all_items_fails_on_added_item :
    walkAllItems stOneItem = Except.error Err.invalidColumnType
    ∧ stOneItem.rows.length = 1
    ∧ lookupItemById stOneItem 1 = Except.ok (some ⟨1, mEx⟩) := by
  exact ⟨rfl, rfl, rfl⟩

/-- C10: the claim states that the incremental digest path
(`Hash::init`, `Hash::update`, `Hash::finish`) leaves in `out` the same
digest the one-shot `hash` writes.  The code violates this:
`Hash::finish` calls `hydro_hash_update` with the output buffer as the
*input* data and never calls `hydro_hash_finish`, so the output buffer is
never written.  Proved: for every context, key, message and buffer the
incremental path returns the buffer unchanged, and at the concrete input
message `[1]`, zero context, no key, one-byte zero buffer, the one-shot
digest `[3]` differs from the untouched buffer `[0]`. -/
theorem hash_finish_never_writes_digest :
    (∀ ctx key msg out, incrementalDigest ctx key msg out = out)
    ∧ incrementalDigest (List.replicate 8 0) none [1] [0] = [0]
    ∧ hashOneShot [1] (List.replicate 8 0) none [0] = [3]
    ∧ ([0] : List Nat) ≠ [3] := by
  exact ⟨fun _ _ _ _ => rfl, rfl, by decide, by decide⟩

/-- C2: in every execution of `gc()`, any sweep event in the trace is
strictly preceded by the transaction commit that persisted the
generation-token UPDATE; since all deletions are issued by the sweep, no
deletion ever precedes that commit. -/
theorem gc_commit_precedes_sweep (mode : OpenMode) (fuel : Nat)
    (tok : String) (st : RepoState) (j : Nat) (d : List Address)
    (h : (gcRepo mode fuel tok st).trace.get? j = some (GcEvent.sweep d)) :
    ∃ i, i < j
      ∧ (gcRepo mode fuel tok st).trace.get? i = some GcEvent.commitTx := by
  cases mode with
  | Shared => simp [gcRepo] at h
  | Exclusive =>
      cases hm : markPhase st.engine fuel st.rows [] with
      | error e =>
          simp only [gcRepo, hm] at h
          rcases j with _ | j <;> simp [List.get?] at h
      | ok reachable =>
          simp only [gcRepo, hm] at h ⊢
          rcases j with _ | _ | _ | j
          · simp [List.get?] at h
          · simp [List.get?] at h
          · exact ⟨1, by omega, rfl⟩
          · simp [List.get?] at h

/-- Witness for C2: in the successful run on the fresh repository, the
sweep is the trace's third event and the commit indeed occurs before it. -/
theorem gc_commit_precedes_sweep_witness :
    ∃ i, i < 2
      ∧ (gcRepo OpenMode.Exclusive 1 "T" stFresh).trace.get? i
          = some GcEvent.commitTx :=
  gc_commit_precedes_sweep OpenMode.Exclusive 1 "T" stFresh 2 [] (by rfl)

/-- C4: if the mark phase of `gc()` fails — an Items row whose metadata
blob fails to bincode-decode, or a tree node whose chunk cannot be fetched
or parsed — then `gc()` returns that error, the repository state
(including the stored chunk set) is unchanged, and no sweep event ever
appears in the trace, so no chunk is deleted. -/
theorem gc_mark_error_aborts_sweep (fuel : Nat) (tok : String)
    (st : RepoState) (e : Err)
    (h : markPhase st.engine fuel st.rows [] = Except.error e) :
    (gcRepo OpenMode.Exclusive fuel tok st).result = Except.error e
    ∧ (gcRepo OpenMode.Exclusive fuel tok st).state = st
    ∧ ∀ j d, (gcRepo OpenMode.Exclusive fuel tok st).trace.get? j
        ≠ some (GcEvent.sweep d) := by
  simp only [gcRepo, h]
  refine ⟨trivial, trivial, ?_⟩
  intro j d
  rcases j with _ | j <;> simp [List.get?]

/-- Witness for C4: on the repository whose single Items row holds a
corrupt metadata blob, the mark phase fails with a decode error, `gc()`
returns it, the state is untouched and no sweep happens. -/
theorem gc_mark_error_aborts_sweep_witness :
    (gcRepo OpenMode.Exclusive 1 "T" stCorrupt).result
        = Except.error Err.decodeError
    ∧ (gcRepo OpenMode.Exclusive 1 "T" stCorrupt).state = stCorrupt
    ∧ ∀ j d, (gcRepo OpenMode.Exclusive 1 "T" stCorrupt).trace.get? j
        ≠ some (GcEvent.sweep d) :=
  gc_mark_error_aborts_sweep 1 "T" stCorrupt Err.decodeError (by rfl)

/-- C9: first-write-wins dedup.  For every engine state not containing
address A and payloads b1, b2: after add(A, b1), sync, add(A, b2), sync,
a get of A returns b1, and the storage state is identical to the state
after the single first add — the second add of an already-present address
succeeds without rewriting.  (This is the property the repository's own
`add_get_chunk` test asserts with payloads `[1]` and `[2]`.) -/
theorem add_chunk_first_write_wins (e : EngineState) (a : Address)
    (b1 b2 : ChunkData) (h : e.find a = none) :
    getChunk (syncEngine (addChunk (syncEngine (addChunk e a b1)) a b2)) a
        = Except.ok b1
    ∧ syncEngine (addChunk (syncEngine (addChunk e a b1)) a b2)
        = syncEngine (addChunk e a b1) := by
  have hfind : e.chunks.find? (fun c => c.1 = a) = none := by
    unfold EngineState.find at h
    exact Option.map_eq_none'.mp h
  have h1 : (addChunk e a b1).find a = some b1 := by
    simp only [addChunk, h]
    unfold EngineState.find
    rw [find?_key_append_absent e.chunks a b1 hfind]
    rfl
  simp only [syncEngine]
  rw [addChunk_present _ _ _ _ h1]
  exact ⟨by simp only [getChunk, h1], rfl⟩

/-- Witness for C9: on the empty engine with the default (zero) address
and payloads `[1]` then `[2]`, the get returns `[1]` and the state equals
the single-add state — the repository's `add_get_chunk` test scenario. -/
theorem add_chunk_first_write_wins_witness :
    getChunk (syncEngine (addChunk
        (syncEngine (addChunk EngineState.empty ⟨[]⟩ (ChunkData.bytes [1])))
        ⟨[]⟩ (ChunkData.bytes [2]))) ⟨[]⟩
      = Except.ok (ChunkData.bytes [1])
    ∧ syncEngine (addChunk
        (syncEngine (addChunk EngineState.empty ⟨[]⟩ (ChunkData.bytes [1])))
        ⟨[]⟩ (ChunkData.bytes [2]))
      = syncEngine (addChunk EngineState.empty ⟨[]⟩ (ChunkData.bytes [1])) :=
  add_chunk_first_write_wins EngineState.empty ⟨[]⟩
    (ChunkData.bytes [1]) (ChunkData.bytes [2]) (by rfl)

/-- C8: `init` fails with AlreadyExists whenever the target path or the
derived staging path (target name suffixed with
`.archivist-repo-init-tmp`) already exists; both existence checks precede
every directory creation, so the filesystem is left unchanged on
failure. -/
theorem init_already_exists (fs : List String) (p : String)
    (h : p ∈ fs ∨ tmpPathOf p ∈ fs) :
    (initRepo fs p).2
        = Except.error
            (Err.alreadyExists (if p ∈ fs then p else tmpPathOf p))
    ∧ (initRepo fs p).1 = fs := by
  by_cases hp : p ∈ fs
  · simp [initRepo, hp]
  · rcases h with h | h
    · exact absurd h hp
    · simp [initRepo, hp, h]

/-- Witness for C8: initializing at an existing path fails with
AlreadyExists naming that path and leaves the filesystem as it was. -/
theorem init_already_exists_witness :
    (initRepo ["r"] "r").2
        = Except.error
            (Err.alreadyExists (if "r" ∈ ["r"] then "r" else tmpPathOf "r"))
    ∧ (initRepo ["r"] "r").1 = ["r"] :=
  init_already_exists ["r"] "r" (Or.inl (by decide))

/-- C7: `open` fails with RepoDoesNotExist when the path does not exist,
NotInitializedProperly when the `data` directory or the `archivist.db`
file is absent, UnsupportedSchemaVersion when the stored schema version
is not 0 — returning no handle in any of those cases — and otherwise
returns a handle holding the lock kind of the requested mode. -/
theorem open_error_taxonomy (fs : RepoFs) (mode : OpenMode) :
    (fs.repoExists = false →
      openRepo fs mode = Except.error Err.repoDoesNotExist)
    ∧ (fs.repoExists = true → fs.dataExists = false →
      openRepo fs mode = Except.error Err.notInitializedProperly)
    ∧ (fs.repoExists = true → fs.dataExists = true → fs.dbExists = false →
      openRepo fs mode = Except.error Err.notInitializedProperly)
    ∧ (fs.repoExists = true → fs.dataExists = true → fs.dbExists = true →
      fs.schemaVersion ≠ 0 →
      openRepo fs mode = Except.error Err.unsupportedSchemaVersion)
    ∧ (fs.repoExists = true → fs.dataExists = true → fs.dbExists = true →
      fs.schemaVersion = 0 →
      openRepo fs mode
        = Except.ok { open_mode := mode, gc_lock := lockFor mode }) := by
  refine ⟨?_, ?_, ?_, ?_, ?_⟩ <;> intros <;>
    simp_all [openRepo, checkSane]

/-- Witness for C7: the five branches at concrete filesystem states. -/
theorem open_error_taxonomy_witness :
    openRepo ⟨false, false, false, 0⟩ OpenMode.Shared
        = Except.error Err.repoDoesNotExist
    ∧ openRepo ⟨true, false, false, 0⟩ OpenMode.Shared
        = Except.error Err.notInitializedProperly
    ∧ openRepo ⟨true, true, false, 0⟩ OpenMode.Shared
        = Except.error Err.notInitializedProperly
    ∧ openRepo ⟨true, true, true, 1⟩ OpenMode.Shared
        = Except.error Err.unsupportedSchemaVersion
    ∧ openRepo ⟨true, true, true, 0⟩ OpenMode.Exclusive
        = Except.ok { open_mode := OpenMode.Exclusive,
                      gc_lock := lockFor OpenMode.Exclusive } :=
  ⟨(open_error_taxonomy ⟨false, false, false, 0⟩ OpenMode.Shared).1 rfl,
   (open_error_taxonomy ⟨true, false, false, 0⟩ OpenMode.Shared).2.1 rfl rfl,
   (open_error_taxonomy ⟨true, true, false, 0⟩ OpenMode.Shared).2.2.1
     rfl rfl rfl,
   (open_error_taxonomy ⟨true, true, true, 1⟩ OpenMode.Shared).2.2.2.1
     rfl rfl rfl (by decide),
   (open_error_taxonomy ⟨true, true, true, 0⟩ OpenMode.Exclusive).2.2.2.2
     rfl rfl rfl rfl⟩

/-- Invariant of add_item-built catalogs: every stored rowid is below the
AUTOINCREMENT counter. -/
def rowsBounded (st : RepoState) : Prop :=
  ∀ r ∈ st.rows, r.1 < st.nextId

/-- `add_item` preserves the rowid bound. -/
theorem addItem_rowsBounded (st : RepoState) (m : ItemMetadata)
    (h : rowsBounded st) : rowsBounded (addItem st m).2 := by
  intro r hr
  simp only [addItem, List.mem_append, List.mem_singleton] at hr
  rcases hr with hr | hr
  · have hn : (addItem st m).2.nextId = st.nextId + 1 := rfl
    rw [hn]
    exact lt_trans (h r hr) (by omega)
  · simp [addItem, hr]

/-- Every catalog built from the fresh state by `add_item` calls
satisfies the rowid bound. -/
theorem buildCatalog_rowsBounded (meta0 : List (String × String))
    (eng : EngineState) (ms : List ItemMetadata) :
    rowsBounded (buildCatalog meta0 eng ms) := by
  have aux : ∀ (l : List ItemMetadata) (st : RepoState), rowsBounded st →
      rowsBounded (l.foldl (fun s m => (addItem s m).2) st) := by
    intro l
    induction l with
    | nil => intro st h; exact h
    | cons m rest ih =>
        intro st h
        exact ih _ (addItem_rowsBounded st m h)
  exact aux ms _ (by intro r hr; simp at hr)

/-- No row of a bound-respecting catalog carries the counter value
itself, so `find?` at the next id misses all existing rows. -/
theorem find?_nextId_none (st : RepoState) (h : rowsBounded st) :
    st.rows.find? (fun r => r.1 = st.nextId) = none := by
  apply List.find?_eq_none.mpr
  intro x hx
  simp only [decide_eq_true_eq]
  exact ne_of_lt (h x hx)

/-- C6: the catalog round trip.  First, for every catalog built by
`add_item` calls, looking up the id returned by a further `add_item(m)`
yields `Some(Item)` with exactly that id and metadata `m` (the stored
bincode blob decodes back).  Second, looking up an id never assigned by
`add_item` yields `None`.  Third, if the stored record at an id is
corrupt (not a bincode encoding), the lookup surfaces the decode
error. -/
theorem add_item_lookup_roundtrip :
    (∀ meta0 eng ms m,
      lookupItemById (addItem (buildCatalog meta0 eng ms) m).2
          (addItem (buildCatalog meta0 eng ms) m).1
        = Except.ok (some ⟨(addItem (buildCatalog meta0 eng ms) m).1, m⟩))
    ∧ (∀ meta0 eng ms i, i ∉ assignedIds (buildCatalog meta0 eng ms) →
        lookupItemById (buildCatalog meta0 eng ms) i = Except.ok none)
    ∧ (∀ st i r bs,
        st.rows.find? (fun row => row.1 = i)
            = some (r, SqlValue.blob (MetaBlob.raw bs)) →
        lookupItemById st i = Except.error Err.decodeError) := by
  refine ⟨?_, ?_, ?_⟩
  · intro meta0 eng ms m
    have hb := buildCatalog_rowsBounded meta0 eng ms
    have hnone := find?_nextId_none _ hb
    unfold lookupItemById
    rw [show (addItem (buildCatalog meta0 eng ms) m).1
          = (buildCatalog meta0 eng ms).nextId from rfl]
    rw [show (addItem (buildCatalog meta0 eng ms) m).2.rows
          = (buildCatalog meta0 eng ms).rows
            ++ [((buildCatalog meta0 eng ms).nextId,
                 SqlValue.blob (MetaBlob.enc m))] from rfl]
    rw [find?_key_append_absent _ _ _ hnone]
    rfl
  · intro meta0 eng ms i hi
    have hnone : (buildCatalog meta0 eng ms).rows.find?
        (fun r => r.1 = i) = none := by
      apply List.find?_eq_none.mpr
      intro x hx
      simp only [decide_eq_true_eq]
      intro hx1
      exact hi (hx1 ▸ List.mem_map_of_mem (fun r => r.1) hx)
    unfold lookupItemById
    rw [hnone]
  · intro st i r bs h
    unfold lookupItemById
    rw [h]
    rfl

/-- Witness for C6: on the empty catalog, adding `mEx` assigns id 1 and
lookup returns it; id 5 was never assigned and returns none; the corrupt
single-row catalog surfaces the decode error. -/
theorem add_item_lookup_roundtrip_witness :
    lookupItemById
        (addItem (buildCatalog (initialMeta "I" "G" "local")
          EngineState.empty []) mEx).2
        (addItem (buildCatalog (initialMeta "I" "G" "local")
          EngineState.empty []) mEx).1
      = Except.ok (some ⟨1, mEx⟩)
    ∧ lookupItemById
        (buildCatalog (initialMeta "I" "G" "local") EngineState.empty []) 5
      = Except.ok none
    ∧ lookupItemById stCorrupt 1 = Except.error Err.decodeError :=
  ⟨add_item_lookup_roundtrip.1 (initialMeta "I" "G" "local")
     EngineState.empty [] mEx,
   add_item_lookup_roundtrip.2.1 (initialMeta "I" "G" "local")
     EngineState.empty [] 5 (by decide),
   add_item_lookup_roundtrip.2.2 stCorrupt 1 1 [0] (by rfl)⟩

end Archivist
